import Mathlib

/-!
Verification of the BWS ovarian-cancer risk-factor and prediction layer.

Definitions are shallow embeddings of `src/bws/risk_factors/oc.py` and of the
parts of the framework it relies on.  Parts of the repository that are not
present under `src/` (the `RiskFactor` base class in `rfs.py`, and
`bws/calcs.py`) are modelled from the specification; each such definition says
so in its doc comment.
-/

namespace BWS

/-- A risk-factor kind: a stable registry name together with its ordered
category-label list (index 0 is the unknown/not-applicable category).
The `name` field models `snake_name()` from the spec: a stable
lowercase-underscore name derived from the class identity. -/
structure RiskFactorKind where
  name : String
  cats : List String
  deriving DecidableEq

/-- `Parity` from `src/bws/risk_factors/oc.py`. -/
def Parity : RiskFactorKind :=
  ⟨"parity", ["-", "0", "1", ">1"]⟩

/-- `OralContraception` from `src/bws/risk_factors/oc.py`. -/
def OralContraception : RiskFactorKind :=
  ⟨"oral_contraception", ["-", "never or <1", "1-4", "5-9", "10-14", ">=15"]⟩

/-- `MHT` (menopause hormone replacement) from `src/bws/risk_factors/oc.py`. -/
def MHT : RiskFactorKind :=
  ⟨"mht", ["-", "never", "ever"]⟩

/-- `TubalLigation` from `src/bws/risk_factors/oc.py`. -/
def TubalLigation : RiskFactorKind :=
  ⟨"tubal_ligation", ["-", "no", "yes"]⟩

/-- `Endometriosis` from `src/bws/risk_factors/oc.py`. -/
def Endometriosis : RiskFactorKind :=
  ⟨"endometriosis", ["-", "no", "yes"]⟩

/-- `BMI` from `src/bws/risk_factors/oc.py`. -/
def BMI : RiskFactorKind :=
  ⟨"bmi", ["-", "<22.5", "22.5-<30", ">=30"]⟩

/-- `Height` from `src/bws/risk_factors/oc.py`. -/
def Height : RiskFactorKind :=
  ⟨"height", ["-", "<152.91", "152.91-<159.65", "159.65-<165.96",
              "165.96-<172.70", ">=172.70"]⟩

/-- `OCRiskFactors.risk_factors`: the ordered registry from
`src/bws/risk_factors/oc.py` lines 114-122. -/
def risk_factors : List RiskFactorKind :=
  [Parity, OralContraception, MHT, TubalLigation, Endometriosis, BMI, Height]

/-- `OCRiskFactors.categories` (oc.py line 125-127): ordered mapping from each
kind's snake-case name to `len(rf.cats) - 1`. -/
def categories : List (String × Nat) :=
  risk_factors.map (fun rf => (rf.name, rf.cats.length - 1))

/-- `OCRiskFactors.risk_factors_categories` (oc.py line 130-132): ordered
mapping from each kind's snake-case name to its category-label list. -/
def risk_factors_categories : List (String × List String) :=
  risk_factors.map (fun rf => (rf.name, rf.cats))

/-! ### Python string primitives

The Python code uses `str.lower()`, `str.strip()`, `str.split(sep)` and
`sep in str`.  These are embedded here as character-list functions (for the
ASCII inputs the risk-factor layer deals in, `Char.toLower` and
`Char.isWhitespace` agree with the Python behaviour). -/

/-- Python `str.lower()`. -/
def pyLower (s : String) : String :=
  String.mk (s.data.map Char.toLower)

/-- Python `str.strip()`: remove leading and trailing whitespace. -/
def pyStrip (s : String) : String :=
  String.mk (((s.data.dropWhile Char.isWhitespace).reverse.dropWhile
      Char.isWhitespace).reverse)

/-- Python `sep in s` for a single-character separator. -/
def pyContains (s : String) (sep : Char) : Bool :=
  s.data.any (fun c => c = sep)

/-- Splitting a character list at every occurrence of `sep`
(Python `str.split(sep)` semantics: adjacent separators give empty parts). -/
def pySplitAux (sep : Char) : List Char → List (List Char)
  | [] => [[]]
  | c :: rest =>
    if c = sep then [] :: pySplitAux sep rest
    else
      match pySplitAux sep rest with
      | h :: t => (c :: h) :: t
      | [] => [[c]]

/-- Python `s.split(sep)` for a single-character separator. -/
def pySplit (s : String) (sep : Char) : List String :=
  (pySplitAux sep s.data).map String.mk

/-! ### Text/enumerated get_category functions (directly from oc.py) -/

/-- `MHT.get_category` (oc.py lines 47-53).  Note the comparisons in the
source are exact string comparisons, with no lowering or stripping. -/
def MHT_get_category (val : String) : Nat :=
  if val = "N" ∨ val = "never" then 1
  else if val = "E" ∨ val = "F" ∨ val = "C" ∨ val = "ever" then 2
  else 0

/-- The `for idx, cat in enumerate(cats): if val == cat or val == alt[idx]`
loop shared by `TubalLigation.get_category` and `Endometriosis.get_category`
(oc.py lines 66-69 and 82-85): return the index of the first position where
`val` equals the canonical label or the alternate code, else 0. -/
def enumMatch (cats alt : List String) (val : String) (idx : Nat) : Nat :=
  match cats, alt with
  | c :: cs, a :: al => if val = c ∨ val = a then idx else enumMatch cs al val (idx + 1)
  | _, _ => 0

/-- `TubalLigation.get_category` (oc.py lines 62-69): lowers and strips the
input, then matches against `cats` or the alternate codes `na`, `n`, `y`. -/
def TubalLigation_get_category (val : String) : Nat :=
  enumMatch TubalLigation.cats ["na", "n", "y"] (pyStrip (pyLower val)) 0

/-- `Endometriosis.get_category` (oc.py lines 78-85): lowers and strips the
input, then matches against `cats` or the alternate codes `na`, `n`, `y`. -/
def Endometriosis_get_category (val : String) : Nat :=
  enumMatch Endometriosis.cats ["na", "n", "y"] (pyStrip (pyLower val)) 0

/-! ### Numeric classification (base class behaviour, modelled from the spec) -/

/-- Modelled from the spec: the numeric bucket logic of the `RiskFactor` base
class in `bws/risk_factors/rfs.py`, which is not under `src/`.  Per the spec,
the category is the one whose labelled boundary range contains the value;
boundaries are half-open (low-<high, final bucket >=threshold).  `bounds` is
the increasing list of boundary values transcribed from the category labels,
so the category index is one more than the number of boundaries at or below
the value. -/
def numericCategory (bounds : List ℚ) (v : ℚ) : Nat :=
  1 + (bounds.filter (fun b => b ≤ v)).length

/-- Modelled from the spec: `RiskFactor.get_num` / numeric parsing of
`rfs.py`, which is not under `src/`.  Parses a non-negative decimal numeral
(digits with an optional fractional part) after stripping whitespace;
any other input is a parse failure, reported as `none` (the Python code
reports the exception and degrades to category 0).  The value of
`w.f` is the exact rational `(w * 10 ^ len f + f) / 10 ^ len f`. -/
def parseDecimal (s : String) : Option ℚ :=
  let t := pyStrip s
  let toNum : List Char → Nat := fun cs => cs.foldl (fun acc c => 10 * acc + (c.toNat - 48)) 0
  match pySplit t '.' with
  | [w] =>
    if w ≠ "" ∧ w.data.all Char.isDigit then some (mkRat (toNum w.data) 1) else none
  | [w, f] =>
    if (w ≠ "" ∨ f ≠ "") ∧ w.data.all Char.isDigit ∧ f.data.all Char.isDigit then
      some (mkRat (toNum w.data * 10 ^ f.data.length + toNum f.data) (10 ^ f.data.length))
    else none
  | _ => none

/-- Boundary values transcribed from `BMI.cats` in oc.py line 89
(22.5 and 30). -/
def bmiBounds : List ℚ := [mkRat 45 2, mkRat 30 1]

/-- `BMI.get_category` (oc.py lines 92-94), which delegates to the base-class
numeric logic with `isreal=True`.  The input is the already-parsed value:
`none` stands for missing/unparsable input, which per the spec yields
category 0. -/
def BMI_get_category : Option ℚ → Nat
  | none => 0
  | some v => numericCategory bmiBounds v

/-- Boundary values transcribed from `OralContraception.cats` in oc.py
line 15 (`1-4`, `5-9`, `10-14`, `>=15`). -/
def ocBounds : List ℚ := [mkRat 1 1, mkRat 5 1, mkRat 10 1, mkRat 15 1]

/-- The `val.split(':')[1]` segment used by the duration branch of
`OralContraception.get_category` (oc.py line 27). -/
def ocSuffix (val : String) : String :=
  (pySplit val ':').getD 1 ""

/-- `OralContraception.get_category` (oc.py lines 19-38).  `"-"` maps to 0;
`"N"`, any-case `"never"` and `"<1"` map to 1; input without a colon maps
to 0; otherwise the segment after the first colon is taken: a stripped
`"<1"`/`"< 1"` maps to 1, a parsed duration below 1 maps to 1, a parsed
duration at least 1 goes through the numeric bucket logic
(base-class behaviour modelled from the spec), and a parse failure is
reported and degrades to 0.  The function is total: no input raises. -/
def OralContraception_get_category (val : String) : Nat :=
  if val = "-" then 0
  else if val = "N" ∨ pyLower val = "never" ∨ pyLower val = "<1" then 1
  else if ¬ pyContains val ':' then 0
  else if pyStrip (ocSuffix val) = "<1" ∨ pyStrip (ocSuffix val) = "< 1" then 1
  else
    match parseDecimal (ocSuffix val) with
    | some q => if q < 1 then 1 else numericCategory ocBounds q
    | none => 0

/-! ### Risk-factor code encoding (modelled from the spec) -/

/-- First value bound to `name` in an association list of per-kind category
indices, defaulting to 0 (`index 0 means factor not used`). -/
def lookupCat (m : List (String × Nat)) (name : String) : Nat :=
  match m.find? (fun p => p.1 = name) with
  | some p => p.2
  | none => 0

/-- Modelled from the spec: `RiskFactors.encode` of `bws/risk_factors/rfs.py`
is not under `src/`.  Per the spec it combines per-kind category indices into
one integer code positionally in registry order via a mixed-radix packing,
each kind contributing a digit of radix equal to its number of categories;
kind names not in the registry are ignored (only registry names are looked
up).  The first registry kind is the least-significant digit. -/
def encodeAux : List RiskFactorKind → List (String × Nat) → Nat
  | [], _ => 0
  | rf :: rest, m => lookupCat m rf.name + rf.cats.length * encodeAux rest m

/-- `RiskFactors.encode` over the OC registry (modelled from the spec, see
`encodeAux`). -/
def encode (m : List (String × Nat)) : Nat :=
  encodeAux risk_factors m

/-- Modelled from the spec: `RiskFactors.decode`, the inverse mixed-radix
unpacking, producing the per-kind category mapping in registry order. -/
def decodeAux : List RiskFactorKind → Nat → List (String × Nat)
  | [], _ => []
  | rf :: rest, c => (rf.name, c % rf.cats.length) :: decodeAux rest (c / rf.cats.length)

/-- `RiskFactors.decode` over the OC registry (modelled from the spec, see
`decodeAux`). -/
def decode (c : Nat) : List (String × Nat) :=
  decodeAux risk_factors c

/-- The per-kind category mapping that assigns value `v` to kind `rf` for
each pair of the zipped lists, in registry order. -/
def zipAssoc : List RiskFactorKind → List Nat → List (String × Nat)
  | rf :: rest, v :: vs => (rf.name, v) :: zipAssoc rest vs
  | _, _ => []

/-- A list of category indices is valid for a list of kinds when they have
the same length and each index is below its kind's number of categories. -/
def validVals : List RiskFactorKind → List Nat → Bool
  | [], [] => true
  | rf :: rest, v :: vs => decide (v < rf.cats.length) && validVals rest vs
  | _, _ => false

/-! ### Pedigree, niceness, prediction orchestration (modelled from the spec
where the code is not under `src/`) -/

/-- A pedigree member, as constructed by the tests in
`src/bws/tests/tests_pedigree.py` (`Female(famid, name, pid, fathid,
mothid, target=..., age=...)`). -/
structure Person where
  famid : String
  name : String
  pid : String
  fathid : String
  mothid : String
  target : Bool
  age : Nat
  deriving DecidableEq

/-- A pedigree: the collection of its people. -/
structure Pedigree where
  people : List Person
  deriving DecidableEq

/-- `Pedigree.get_target`: the person with the target flag set. -/
def Pedigree.get_target (p : Pedigree) : Option Person :=
  p.people.find? (fun q => q.target)

/-- Whether `q` counts as a sibling of `t`: a different person with the same
father id and mother id (modelled from the spec's pedigree relationships,
as exercised by the sister of `RiskTests.test_niceness`). -/
def isSibling (t q : Person) : Bool :=
  q.pid != t.pid && q.fathid == t.fathid && q.mothid == t.mothid

/-- The number of siblings of `t` among `people`. -/
def siblingCount (people : List Person) (t : Person) : Nat :=
  (people.filter (fun q => isSibling t q)).length

/-- Modelled from the spec: `Predictions._get_niceness` of `bws/calcs.py` is
not under `src/`.  The spec describes a niceness scheduling hint that scales
the pedigree's person count by the scaling factor, is rounded down to an
integer, is clamped to the scheduler maximum 19, and is recomputed when
membership changes.  The in-src test `RiskTests.test_niceness` pins the
behaviour: factor 1 gives the person count, factor 0.01 gives 19 on the
three-person fixture, and a pedigree whose target has a sibling gives 19 at
the default factor; this forces person count divided by the factor, clamped
at 19, with a short-circuit to the maximum when the target has siblings. -/
def get_niceness (pedi : Pedigree) (factor : ℚ) : Nat :=
  match pedi.get_target with
  | some t =>
    if 0 < siblingCount pedi.people t then 19
    else min (Int.toNat ⌊(pedi.people.length : ℚ) / factor⌋) 19
  | none => min (Int.toNat ⌊(pedi.people.length : ℚ) / factor⌋) 19

/-- Modelled from the spec: the age schedule of `bws/calcs.py` is not under
`src/`.  Per the spec the per-age risk records are evaluated yearly for the
five years after the current age, then at the 5-year checkpoints up to
age 80. -/
def ageSchedule (age : Nat) : List Nat :=
  ((List.range 5).map (fun i => age + 1 + i)).filter (fun a => a ≤ 80) ++
    ((List.range 17).map (fun i => 5 * i)).filter (fun a => age + 5 < a ∧ a ≤ 80)

/-- The error surfaced when the external engine executable cannot be located
or executed (`FileNotFoundError` in the tests). -/
inductive EngineError where
  | fileNotFound
  deriving DecidableEq

/-- Modelled from the spec: whether the configured external engine executable
can be located and executed in the current environment. -/
structure EngineEnv where
  engineResolvable : Bool
  deriving DecidableEq

/-- The parsed orchestration result relevant to the claims: the ages of the
per-age cancer-risk records. -/
structure PredResult where
  cancerRiskAges : List Nat
  deriving DecidableEq

/-- Modelled from the spec: the `Predictions` orchestration of `bws/calcs.py`
is not under `src/`.  With `run_risks` set, the engine is invoked: if its
executable cannot be located the construction fails with the
missing-executable error before any result is produced; otherwise the engine
is run and its per-age records are evaluated at the scheduled ages for the
target's age.  With `run_risks` unset no engine invocation happens. -/
def runPredictions (env : EngineEnv) (pedi : Pedigree) (run_risks : Bool) :
    Except EngineError PredResult :=
  if run_risks then
    if env.engineResolvable then
      Except.ok ⟨match pedi.get_target with
                 | some t => ageSchedule t.age
                 | none => []⟩
    else Except.error EngineError.fileNotFound
  else Except.ok ⟨[]⟩

/-- Modelled from the spec: `RemainingLifetimeRisk._get_pedi` of
`bws/calcs.py` is not under `src/`.  The lifetime view evaluates risk from
the target's current age to 80; per the spec its result must equal the
age-80 record of a direct run on the same pedigree, so the pedigree is kept
whole, target age unchanged. -/
def RemainingLifetimeRisk_get_pedi (pedi : Pedigree) : Pedigree :=
  pedi

/-- Modelled from the spec: `RangeRiskBaseline._get_pedi` of `bws/calcs.py`
is not under `src/`.  Per the spec the range-baseline view builds a reduced
pedigree containing only the target, with the target age set to the range's
start age. -/
def RangeRiskBaseline_get_pedi (pedi : Pedigree) (start_age : Nat) : Pedigree :=
  match pedi.get_target with
  | some t => ⟨[{ t with age := start_age }]⟩
  | none => ⟨[]⟩

/-- The three-person pedigree built by the test fixture
(`RiskTests.setUp`): a 20-year-old target plus the two synthesized
parents. -/
def testPedigree : Pedigree :=
  ⟨[⟨"FAM1", "F0", "001", "002", "003", true, 20⟩,
    ⟨"FAM1", "father", "002", "0", "0", false, 55⟩,
    ⟨"FAM1", "mother", "003", "0", "0", false, 55⟩]⟩

/-- The sister appended to the pedigree in `RiskTests.test_niceness`. -/
def testSister : Person := ⟨"FAM1", "F01", "0011", "002", "003", false, 22⟩

/-- A five-person single-branch pedigree whose target has no siblings:
the test target, her parents, and her maternal grandparents. -/
def testPedigreeFive : Pedigree :=
  ⟨[⟨"FAM1", "F0", "001", "002", "003", true, 20⟩,
    ⟨"FAM1", "father", "002", "0", "0", false, 55⟩,
    ⟨"FAM1", "mother", "003", "004", "005", false, 55⟩,
    ⟨"FAM1", "grandfather", "004", "0", "0", false, 80⟩,
    ⟨"FAM1", "grandmother", "005", "0", "0", false, 80⟩]⟩

/-! ## Helper lemmas -/

theorem filter_length_mono {α : Type} (l : List α) (p q : α → Bool)
    (h : ∀ a, p a = true → q a = true) :
    (l.filter p).length ≤ (l.filter q).length := by
  induction l with
  | nil => simp
  | cons a t ih =>
    by_cases hp : p a = true
    · have hq := h a hp
      simp only [List.filter_cons, hp, hq, if_true, List.length_cons]
      omega
    · by_cases hq : q a = true <;>
        simp only [List.filter_cons, hp, hq, if_true, if_false, Bool.false_eq_true,
          List.length_cons] <;> omega

theorem numericCategory_mono (bounds : List ℚ) {x y : ℚ} (h : x ≤ y) :
    numericCategory bounds x ≤ numericCategory bounds y := by
  unfold numericCategory
  have := filter_length_mono bounds (fun b => decide (b ≤ x)) (fun b => decide (b ≤ y))
    (by intro b hb; simp only [decide_eq_true_eq] at hb ⊢; exact le_trans hb h)
  omega

theorem numericCategory_lt (bounds : List ℚ) (v : ℚ) :
    numericCategory bounds v < bounds.length + 2 := by
  unfold numericCategory
  have := List.length_filter_le (fun b => decide (b ≤ v)) bounds
  omega

theorem get_target_append (p : Pedigree) (extra : List Person) (t : Person)
    (h : p.get_target = some t) :
    (⟨p.people ++ extra⟩ : Pedigree).get_target = some t := by
  unfold Pedigree.get_target at h ⊢
  rw [List.find?_append, h]
  rfl

theorem siblingCount_append (people extra : List Person) (t : Person) :
    siblingCount (people ++ extra) t = siblingCount people t + siblingCount extra t := by
  unfold siblingCount
  rw [List.filter_append, List.length_append]

theorem floor_div_mono (f : ℚ) (hf : 0 ≤ f) {a b : Nat} (h : a ≤ b) :
    ⌊(a : ℚ) / f⌋ ≤ ⌊(b : ℚ) / f⌋ := by
  rcases eq_or_lt_of_le hf with hf0 | hfpos
  · rw [← hf0, div_zero, div_zero]
  · exact Int.floor_le_floor ((div_le_div_iff_of_pos_right hfpos).mpr (by exact_mod_cast h))

theorem get_niceness_le (p : Pedigree) (f : ℚ) : get_niceness p f ≤ 19 := by
  rcases hgt : p.get_target with _ | t
  · simp only [get_niceness, hgt]
    exact min_le_right _ _
  · simp only [get_niceness, hgt]
    by_cases hs : 0 < siblingCount p.people t
    · simp [hs]
    · simp only [hs, if_false]
      exact min_le_right _ _

theorem enumMatch_yesno (t : String) :
    enumMatch ["-", "no", "yes"] ["na", "n", "y"] t 0 =
      (if t = "no" ∨ t = "n" then 1
       else if t = "yes" ∨ t = "y" then 2
       else 0) := by
  simp only [enumMatch]
  by_cases h0 : t = "-" ∨ t = "na"
  · have h1 : ¬ (t = "no" ∨ t = "n") := by
      rcases h0 with h | h <;> subst h <;> decide
    have h2 : ¬ (t = "yes" ∨ t = "y") := by
      rcases h0 with h | h <;> subst h <;> decide
    simp [h0, h1, h2]
  · simp [h0]

theorem lookupCat_cons_ne (a : String × Nat) (m : List (String × Nat)) (name : String)
    (h : a.1 ≠ name) : lookupCat (a :: m) name = lookupCat m name := by
  simp [lookupCat, List.find?, h]

theorem encodeAux_cons_notmem (rfs : List RiskFactorKind) (a : String × Nat)
    (m : List (String × Nat)) (h : a.1 ∉ rfs.map RiskFactorKind.name) :
    encodeAux rfs (a :: m) = encodeAux rfs m := by
  induction rfs with
  | nil => rfl
  | cons rf rest ih =>
    simp only [List.map_cons, List.mem_cons, not_or] at h
    simp only [encodeAux, lookupCat_cons_ne a m rf.name h.1, ih h.2]

theorem roundtripAux (rfs : List RiskFactorKind) (vals : List Nat)
    (hnd : (rfs.map RiskFactorKind.name).Nodup)
    (hv : validVals rfs vals = true) :
    decodeAux rfs (encodeAux rfs (zipAssoc rfs vals)) = zipAssoc rfs vals := by
  induction rfs generalizing vals with
  | nil =>
    cases vals with
    | nil => rfl
    | cons v vs => simp [validVals] at hv
  | cons rf rest ih =>
    cases vals with
    | nil => simp [validVals] at hv
    | cons v vs =>
      simp only [validVals, Bool.and_eq_true, decide_eq_true_eq] at hv
      obtain ⟨hvlt, hvs⟩ := hv
      simp only [List.map_cons, List.nodup_cons] at hnd
      obtain ⟨hni, hnd2⟩ := hnd
      have hlook : lookupCat ((rf.name, v) :: zipAssoc rest vs) rf.name = v := by
        simp [lookupCat, List.find?]
      have henc : encodeAux rest ((rf.name, v) :: zipAssoc rest vs) =
          encodeAux rest (zipAssoc rest vs) :=
        encodeAux_cons_notmem rest (rf.name, v) (zipAssoc rest vs) hni
      have hpos : 0 < rf.cats.length := Nat.pos_of_ne_zero (by omega)
      simp only [zipAssoc, encodeAux, decodeAux, hlook, henc]
      rw [Nat.add_mul_mod_self_left, Nat.mod_eq_of_lt hvlt,
        Nat.add_mul_div_left _ _ hpos, Nat.div_eq_of_lt hvlt, Nat.zero_add]
      simp [ih vs hnd2 hvs]

/-! ## Claims -/

/-- Claim C1: for every valid assignment of category indices to the
risk-factor kinds of the OC registry (each index within that kind's category
range), decoding the encoded integer code returns exactly the original
per-kind category mapping, and kind names not in the registry are ignored by
encode. -/
theorem C1_encode_decode_roundtrip :
    (∀ vals : List Nat, validVals risk_factors vals = true →
      decode (encode (zipAssoc risk_factors vals)) = zipAssoc risk_factors vals)
    ∧ (∀ (name : String) (v : Nat) (m : List (String × Nat)),
        name ∉ risk_factors.map RiskFactorKind.name →
        encode ((name, v) :: m) = encode m) := by
  constructor
  · intro vals hv
    exact roundtripAux risk_factors vals (by decide) hv
  · intro name v m h
    exact encodeAux_cons_notmem risk_factors (name, v) m h

/-- Witness for C1: the round trip and the unknown-name law evaluated on a
concrete category assignment. -/
theorem C1_encode_decode_roundtrip_witness :
    decode (encode (zipAssoc risk_factors [1, 2, 0, 1, 2, 3, 4])) =
      zipAssoc risk_factors [1, 2, 0, 1, 2, 3, 4]
    ∧ encode (("bogus", 3) :: zipAssoc risk_factors [1, 2, 0, 1, 2, 3, 4]) =
      encode (zipAssoc risk_factors [1, 2, 0, 1, 2, 3, 4]) :=
  ⟨C1_encode_decode_roundtrip.1 [1, 2, 0, 1, 2, 3, 4] (by decide),
   C1_encode_decode_roundtrip.2 "bogus" 3 (zipAssoc risk_factors [1, 2, 0, 1, 2, 3, 4])
     (by decide)⟩

/-- Counterexample for C6: the claim says the derived category-count mapping
takes each kind's name to the number of entries in its category label list;
for `parity` the code stores `len(cats) - 1 = 3`, not `len(cats) = 4`. -/
theorem C6_counterexample :
    List.lookup "parity" categories ≠ some Parity.cats.length ∧
      List.lookup "parity" categories = some 3 ∧ Parity.cats.length = 4 := by
  decide

/-- Claim C6 (amended): for every kind in the OC registry, the derived
category-count mapping takes the kind's snake-case name to the number of its
categories excluding the index-0 unknown category (`len(cats) - 1`), the
category-label mapping takes the same name to the label list itself, and
both mappings list the kinds in registry order. -/
theorem C6_registry_mappings :
    (∀ rf ∈ risk_factors,
      List.lookup rf.name categories = some (rf.cats.length - 1)
      ∧ List.lookup rf.name risk_factors_categories = some rf.cats)
    ∧ categories.map Prod.fst = risk_factors.map RiskFactorKind.name
    ∧ risk_factors_categories.map Prod.fst = risk_factors.map RiskFactorKind.name := by
  decide

/-- Witness for C6: the registry lookups evaluated at the `Parity` kind. -/
theorem C6_registry_mappings_witness :
    List.lookup Parity.name categories = some (Parity.cats.length - 1)
    ∧ List.lookup Parity.name risk_factors_categories = some Parity.cats :=
  C6_registry_mappings.1 Parity (by decide)

/-- Claim C7: constructing Predictions with run_risks enabled when the
external engine executable cannot be located raises the missing-executable
error and produces no result object. -/
theorem C7_missing_executable :
    ∀ (env : EngineEnv) (pedi : Pedigree), env.engineResolvable = false →
      runPredictions env pedi true = Except.error EngineError.fileNotFound
      ∧ ∀ r : PredResult, runPredictions env pedi true ≠ Except.ok r := by
  intro env pedi h
  refine ⟨by simp [runPredictions, h], ?_⟩
  intro r
  simp [runPredictions, h]

/-- Witness for C7: the missing-executable failure evaluated on a concrete
environment and pedigree. -/
theorem C7_missing_executable_witness :
    runPredictions ⟨false⟩ testPedigree true = Except.error EngineError.fileNotFound :=
  (C7_missing_executable ⟨false⟩ testPedigree rfl).1

/-- Claim C8: for a 20-year-old target, the orchestrator's cancer_risks
sequence has exactly 16 per-age records at ages
21, 22, 23, 24, 25, 30, 35, 40, 45, 50, 55, 60, 65, 70, 75, 80. -/
theorem C8_age_schedule :
    ∀ (env : EngineEnv) (pedi : Pedigree) (t : Person),
      env.engineResolvable = true → pedi.get_target = some t → t.age = 20 →
      runPredictions env pedi true =
        Except.ok ⟨[21, 22, 23, 24, 25, 30, 35, 40, 45, 50, 55, 60, 65, 70, 75, 80]⟩
      ∧ ([21, 22, 23, 24, 25, 30, 35, 40, 45, 50, 55, 60, 65, 70, 75, 80] : List Nat).length
          = 16 := by
  intro env pedi t henv htarget hage
  refine ⟨?_, rfl⟩
  simp only [runPredictions, henv, htarget, hage, if_pos]
  rfl

/-- Witness for C8: the 16-age schedule evaluated on the concrete test
pedigree with its 20-year-old target. -/
theorem C8_age_schedule_witness :
    runPredictions ⟨true⟩ testPedigree true =
      Except.ok ⟨[21, 22, 23, 24, 25, 30, 35, 40, 45, 50, 55, 60, 65, 70, 75, 80]⟩ :=
  (C8_age_schedule ⟨true⟩ testPedigree
    ⟨"FAM1", "F0", "001", "002", "003", true, 20⟩ rfl (by decide) rfl).1

/-- Claim C10: for every pedigree with a target, the reduced pedigree built
by RemainingLifetimeRisk._get_pedi has the same number of people as the
original and a target of the same age, while the reduced pedigree built by
RangeRiskBaseline._get_pedi with start age 40 contains exactly one person,
the target, whose age is set to 40. -/
theorem C10_reduced_pedigrees :
    ∀ (p : Pedigree) (t : Person), p.get_target = some t →
      ((RemainingLifetimeRisk_get_pedi p).people.length = p.people.length
        ∧ ∃ t2, (RemainingLifetimeRisk_get_pedi p).get_target = some t2
            ∧ t2.age = t.age)
      ∧ ((RangeRiskBaseline_get_pedi p 40).people.length = 1
        ∧ ∃ t2, (RangeRiskBaseline_get_pedi p 40).get_target = some t2
            ∧ t2.age = 40) := by
  intro p t h
  have ht : t.target = true := by
    have := List.find?_some h
    simpa using this
  have hr : RangeRiskBaseline_get_pedi p 40 = ⟨[{ t with age := 40 }]⟩ := by
    unfold RangeRiskBaseline_get_pedi
    rw [h]
  refine ⟨⟨rfl, t, h, rfl⟩, ?_, ?_⟩
  · rw [hr]
    rfl
  · refine ⟨{ t with age := 40 }, ?_, rfl⟩
    rw [hr]
    simp [Pedigree.get_target, List.find?, ht]

/-- Witness for C10: the two reduced pedigrees evaluated on the concrete
three-person test pedigree (target plus synthesized parents). -/
theorem C10_reduced_pedigrees_witness :
    ((RemainingLifetimeRisk_get_pedi testPedigree).people.length =
        testPedigree.people.length
      ∧ ∃ t2, (RemainingLifetimeRisk_get_pedi testPedigree).get_target = some t2
          ∧ t2.age = (20 : Nat))
    ∧ ((RangeRiskBaseline_get_pedi testPedigree 40).people.length = 1
      ∧ ∃ t2, (RangeRiskBaseline_get_pedi testPedigree 40).get_target = some t2
          ∧ t2.age = 40) :=
  C10_reduced_pedigrees testPedigree
    ⟨"FAM1", "F0", "001", "002", "003", true, 20⟩ (by decide)

/-- Counterexample for C2: the claim says MHT.get_category matches the input
case-insensitively against the canonical label; but the code compares exact
strings only, so `NEVER` (whose lowercase form is the canonical label
`never`) yields category 0, not 1. -/
theorem C2_counterexample :
    pyLower "NEVER" = "never" ∧ MHT_get_category "NEVER" ≠ 1 := by
  decide

/-- Claim C2 (amended): TubalLigation.get_category and
Endometriosis.get_category lowercase and strip the input and then match it
against the canonical category label or the positional alternate-code list
(`na` to 0, `n` to 1, `y` to 2), returning 0 for every unrecognized input;
MHT.get_category instead matches case-sensitively: exactly `N` or `never`
map to 1, exactly `E`, `F`, `C` or `ever` map to 2, and every other input
(including other capitalizations such as `NEVER`) returns 0. -/
theorem C2_text_factor_matching :
    (∀ s : String, s ∉ (["N", "never", "E", "F", "C", "ever"] : List String) →
      MHT_get_category s = 0)
    ∧ MHT_get_category "N" = 1 ∧ MHT_get_category "never" = 1
    ∧ MHT_get_category "E" = 2 ∧ MHT_get_category "F" = 2
    ∧ MHT_get_category "C" = 2 ∧ MHT_get_category "ever" = 2
    ∧ (∀ s : String,
        TubalLigation_get_category s =
          (if pyStrip (pyLower s) = "no" ∨ pyStrip (pyLower s) = "n" then 1
           else if pyStrip (pyLower s) = "yes" ∨ pyStrip (pyLower s) = "y" then 2
           else 0))
    ∧ (∀ s : String,
        Endometriosis_get_category s =
          (if pyStrip (pyLower s) = "no" ∨ pyStrip (pyLower s) = "n" then 1
           else if pyStrip (pyLower s) = "yes" ∨ pyStrip (pyLower s) = "y" then 2
           else 0)) := by
  refine ⟨?_, by decide, by decide, by decide, by decide, by decide, by decide, ?_, ?_⟩
  · intro s h
    simp only [List.mem_cons, List.mem_singleton, not_or] at h
    obtain ⟨h1, h2, h3, h4, h5, h6⟩ := h
    simp [MHT_get_category, h1, h2, h3, h4, h5, h6]
  · intro s
    simp only [TubalLigation_get_category, TubalLigation]
    exact enumMatch_yesno (pyStrip (pyLower s))
  · intro s
    simp only [Endometriosis_get_category, Endometriosis]
    exact enumMatch_yesno (pyStrip (pyLower s))

/-- Witness for C2: the case-sensitive MHT default branch and the
case-insensitive TubalLigation matching evaluated on concrete inputs. -/
theorem C2_text_factor_matching_witness :
    MHT_get_category "xyz" = 0 ∧
      TubalLigation_get_category " Yes " =
        (if pyStrip (pyLower " Yes ") = "no" ∨ pyStrip (pyLower " Yes ") = "n" then 1
         else if pyStrip (pyLower " Yes ") = "yes" ∨ pyStrip (pyLower " Yes ") = "y" then 2
         else 0) :=
  ⟨C2_text_factor_matching.1 "xyz" (by decide),
   C2_text_factor_matching.2.2.2.2.2.2.2.1 " Yes "⟩

/-- Claim C3: OralContraception.get_category maps `-` to 0; `N`, any-case
`never` and any-case `<1` to 1; a colon-delimited duration whose suffix is
below one year (`X:0.5`, `X:<1`, `X:< 1`) to 1; unparsable input degrades
to 0; and the function is total, always returning a category index below
the number of categories (no input raises). -/
theorem C3_oral_contraception :
    OralContraception_get_category "-" = 0
    ∧ OralContraception_get_category "N" = 1
    ∧ (∀ s : String, pyLower s = "never" → OralContraception_get_category s = 1)
    ∧ (∀ s : String, pyLower s = "<1" → OralContraception_get_category s = 1)
    ∧ OralContraception_get_category "X:0.5" = 1
    ∧ OralContraception_get_category "X:<1" = 1
    ∧ OralContraception_get_category "X:< 1" = 1
    ∧ OralContraception_get_category "rubbish" = 0
    ∧ OralContraception_get_category "X:rubbish" = 0
    ∧ (∀ s : String,
        OralContraception_get_category s < OralContraception.cats.length) := by
  refine ⟨by decide, by decide, ?_, ?_, by decide, by decide, by decide, by decide,
    by decide, ?_⟩
  · intro s h
    have hne : s ≠ "-" := by
      intro e
      subst e
      exact absurd h (by decide)
    simp [OralContraception_get_category, hne, h]
  · intro s h
    have hne : s ≠ "-" := by
      intro e
      subst e
      exact absurd h (by decide)
    simp [OralContraception_get_category, hne, h]
  · intro s
    show OralContraception_get_category s < 6
    unfold OralContraception_get_category
    split_ifs <;> try omega
    cases parseDecimal (ocSuffix s) with
    | none => decide
    | some q =>
      simp only []
      split_ifs with h
      · omega
      · have hb := numericCategory_lt ocBounds q
        have hl : ocBounds.length = 4 := rfl
        omega

/-- Witness for C3: the any-case `never` branch evaluated at `NEVER`. -/
theorem C3_oral_contraception_witness :
    OralContraception_get_category "NEVER" = 1 :=
  C3_oral_contraception.2.2.1 "NEVER" (by decide)

/-- Counterexample for C4: at scaling factor 1/100 the three-person test
pedigree already sits at the clamp value 19 (the value the in-src test
`test_niceness` asserts for exactly this input), so appending the test
sister leaves the niceness at 19 and does not increase it; and niceness is
not monotone in the bare person count: at factor 1 the four-person pedigree
with the sister (whose target has a sibling) has niceness 19 while the
five-person sibling-free pedigree has niceness 5. -/
theorem C4_counterexample :
    (get_niceness testPedigree (mkRat 1 100) = 19
      ∧ get_niceness ⟨testPedigree.people ++ [testSister]⟩ (mkRat 1 100) = 19
      ∧ ¬ (get_niceness testPedigree (mkRat 1 100) <
            get_niceness ⟨testPedigree.people ++ [testSister]⟩ (mkRat 1 100)))
    ∧ ((⟨testPedigree.people ++ [testSister]⟩ : Pedigree).people.length ≤
          testPedigreeFive.people.length
      ∧ ¬ (get_niceness ⟨testPedigree.people ++ [testSister]⟩ (mkRat 1 1) ≤
            get_niceness testPedigreeFive (mkRat 1 1))) := by
  have htp : testPedigree.get_target =
      some ⟨"FAM1", "F0", "001", "002", "003", true, 20⟩ := rfl
  have hsib0 : siblingCount testPedigree.people
      ⟨"FAM1", "F0", "001", "002", "003", true, 20⟩ = 0 := by decide
  have h1 : get_niceness testPedigree (mkRat 1 100) = 19 := by
    simp only [get_niceness, htp, hsib0, Nat.lt_irrefl, if_false]
    norm_num [testPedigree, Rat.mkRat_eq_divInt]
  have hta : (⟨testPedigree.people ++ [testSister]⟩ : Pedigree).get_target =
      some ⟨"FAM1", "F0", "001", "002", "003", true, 20⟩ := rfl
  have hsib1 : 0 < siblingCount (testPedigree.people ++ [testSister])
      ⟨"FAM1", "F0", "001", "002", "003", true, 20⟩ := by decide
  have h2 : ∀ f : ℚ, get_niceness ⟨testPedigree.people ++ [testSister]⟩ f = 19 := by
    intro f
    simp only [get_niceness, hta]
    rw [if_pos hsib1]
  have htf : testPedigreeFive.get_target =
      some ⟨"FAM1", "F0", "001", "002", "003", true, 20⟩ := rfl
  have hsibf : siblingCount testPedigreeFive.people
      ⟨"FAM1", "F0", "001", "002", "003", true, 20⟩ = 0 := by decide
  have h5 : get_niceness testPedigreeFive (mkRat 1 1) = 5 := by
    simp only [get_niceness, htf, hsibf, Nat.lt_irrefl, if_false]
    norm_num [testPedigreeFive, Rat.mkRat_eq_divInt]
    decide
  refine ⟨⟨h1, h2 (mkRat 1 100), ?_⟩, by decide, ?_⟩
  · rw [h1, h2 (mkRat 1 100)]
    omega
  · rw [h2 (mkRat 1 1), h5]
    omega

/-- Claim C4 (amended): for every fixed non-negative scaling factor, the
niceness value is monotonic non-decreasing in the pedigree's person count
among pedigrees whose targets have no siblings, and non-decreasing under
appending people to a pedigree; appending a sibling of the target sets the
niceness to the scheduler maximum 19, hence never decreases it (and
strictly increases it exactly when the value was below 19). -/
theorem C4_niceness_monotone :
    (∀ (f : ℚ) (p q : Pedigree) (tp tq : Person), 0 ≤ f →
      p.get_target = some tp → q.get_target = some tq →
      siblingCount p.people tp = 0 → siblingCount q.people tq = 0 →
      p.people.length ≤ q.people.length →
      get_niceness p f ≤ get_niceness q f)
    ∧ (∀ (f : ℚ) (p : Pedigree) (extra : List Person) (t : Person), 0 ≤ f →
      p.get_target = some t →
      get_niceness p f ≤ get_niceness ⟨p.people ++ extra⟩ f)
    ∧ (∀ (f : ℚ) (p : Pedigree) (t s : Person),
      p.get_target = some t → isSibling t s = true →
      get_niceness ⟨p.people ++ [s]⟩ f = 19
      ∧ get_niceness p f ≤ get_niceness ⟨p.people ++ [s]⟩ f) := by
  refine ⟨?_, ?_, ?_⟩
  · intro f p q tp tq hf hp hq hsp hsq hlen
    simp only [get_niceness, hp, hq, hsp, hsq, Nat.lt_irrefl, if_false]
    exact min_le_min (Int.toNat_le_toNat (floor_div_mono f hf hlen)) le_rfl
  · intro f p extra t hf ht
    have ht2 := get_target_append p extra t ht
    simp only [get_niceness, ht, ht2]
    have hsa := siblingCount_append p.people extra t
    by_cases h1 : 0 < siblingCount p.people t
    · have h2 : 0 < siblingCount (p.people ++ extra) t := by omega
      simp [h1, h2]
    · simp only [h1, if_false]
      by_cases h2 : 0 < siblingCount (p.people ++ extra) t
      · simp only [h2, if_true]
        exact min_le_right _ _
      · simp only [h2, if_false]
        have hlen : p.people.length ≤ (p.people ++ extra).length := by simp
        exact min_le_min (Int.toNat_le_toNat (floor_div_mono f hf hlen)) le_rfl
  · intro f p t s ht hs
    have ht2 := get_target_append p [s] t ht
    have hcount : 0 < siblingCount (p.people ++ [s]) t := by
      rw [siblingCount_append]
      have hone : siblingCount [s] t = 1 := by
        unfold siblingCount
        simp [List.filter, hs]
      omega
    have h19 : get_niceness ⟨p.people ++ [s]⟩ f = 19 := by
      simp only [get_niceness, ht2]
      rw [if_pos hcount]
    exact ⟨h19, by rw [h19]; exact get_niceness_le p f⟩

/-- Witness for C4: appending the test sister to the test pedigree at
scaling factor 1/2 yields the maximum niceness 19 and does not decrease
the value. -/
theorem C4_niceness_monotone_witness :
    get_niceness ⟨testPedigree.people ++ [testSister]⟩ (mkRat 1 2) = 19
    ∧ get_niceness testPedigree (mkRat 1 2) ≤
        get_niceness ⟨testPedigree.people ++ [testSister]⟩ (mkRat 1 2) :=
  C4_niceness_monotone.2.2 (mkRat 1 2) testPedigree
    ⟨"FAM1", "F0", "001", "002", "003", true, 20⟩ testSister rfl (by decide)

/-- Claim C9: BMI.get_category classifies numeric values into half-open
monotonic buckets: 21.9 maps to category 1, 22.5 to 2, 29.9 to 2, 30.0
to 3; missing or unparsable input maps to 0; and the classification is
monotone in the value. -/
theorem C9_bmi_buckets :
    BMI_get_category (some (mkRat 219 10)) = 1
    ∧ BMI_get_category (some (mkRat 45 2)) = 2
    ∧ BMI_get_category (some (mkRat 299 10)) = 2
    ∧ BMI_get_category (some (mkRat 30 1)) = 3
    ∧ BMI_get_category none = 0
    ∧ (∀ x y : ℚ, x ≤ y → BMI_get_category (some x) ≤ BMI_get_category (some y)) := by
  refine ⟨by decide, by decide, by decide, by decide, rfl, ?_⟩
  intro x y h
  exact numericCategory_mono bmiBounds h

/-- Witness for C9: the bucket monotonicity evaluated at 21.9 and 22.5. -/
theorem C9_bmi_buckets_witness :
    BMI_get_category (some (mkRat 219 10)) ≤ BMI_get_category (some (mkRat 45 2)) :=
  C9_bmi_buckets.2.2.2.2.2 (mkRat 219 10) (mkRat 45 2) (by decide)

end BWS
